import Mathlib

/-!
Verification of the trollup rollup node against its specification.

Bytes are modelled as `Nat` (well-formed values are `< 256`), byte strings as
`List Nat`, and machine integers as `Nat` with explicit `% 2 ^ w` wrapping.
Hashing is a full executable SHA-256 (FIPS 180-4) so that key-derivation and
lookup behaviour can be evaluated on concrete inputs.
-/

namespace Trollup

/-! ## SHA-256 (FIPS 180-4), executable over byte lists -/

/-- Wrap to a 32-bit word. -/
def w32 (n : Nat) : Nat := n % 4294967296

/-- Right-rotation of a 32-bit word by `n` bits. -/
def rotr (n x : Nat) : Nat := w32 ((x >>> n) ||| (x <<< (32 - n)))

/-- Bitwise complement of a 32-bit word. -/
def not32 (x : Nat) : Nat := x ^^^ 4294967295

/-- SHA-256 `Ch` function. -/
def ch (x y z : Nat) : Nat := (x &&& y) ^^^ (not32 x &&& z)

/-- SHA-256 `Maj` function. -/
def maj (x y z : Nat) : Nat := (x &&& y) ^^^ (x &&& z) ^^^ (y &&& z)

/-- SHA-256 `Σ₀`. -/
def bsig0 (x : Nat) : Nat := rotr 2 x ^^^ rotr 13 x ^^^ rotr 22 x

/-- SHA-256 `Σ₁`. -/
def bsig1 (x : Nat) : Nat := rotr 6 x ^^^ rotr 11 x ^^^ rotr 25 x

/-- SHA-256 `σ₀`. -/
def ssig0 (x : Nat) : Nat := rotr 7 x ^^^ rotr 18 x ^^^ (x >>> 3)

/-- SHA-256 `σ₁`. -/
def ssig1 (x : Nat) : Nat := rotr 17 x ^^^ rotr 19 x ^^^ (x >>> 10)

/-- The 64 SHA-256 round constants (decimal). -/
def shaK : List Nat :=
  [1116352408, 1899447441, 3049323471, 3921009573, 961987163, 1508970993,
   2453635748, 2870763221, 3624381080, 310598401, 607225278, 1426881987,
   1925078388, 2162078206, 2614888103, 3248222580, 3835390401, 4022224774,
   264347078, 604807628, 770255983, 1249150122, 1555081692, 1996064986,
   2554220882, 2821834349, 2952996808, 3210313671, 3336571891, 3584528711,
   113926993, 338241895, 666307205, 773529912, 1294757372, 1396182291,
   1695183700, 1986661051, 2177026350, 2456956037, 2730485921, 2820302411,
   3259730800, 3345764771, 3516065817, 3600352804, 4094571909, 275423344,
   430227734, 506948616, 659060556, 883997877, 958139571, 1322822218,
   1537002063, 1747873779, 1955562222, 2024104815, 2227730452, 2361852424,
   2428436474, 2756734187, 3204031479, 3329325298]

/-- The eight SHA-256 initial hash values (decimal). -/
def shaH0 : List Nat :=
  [1779033703, 3144134277, 1013904242, 2773480762,
   1359893119, 2600822924, 528734635, 1541459225]

/-- Big-endian serialization of `n` into `k` bytes. -/
def beBytes : Nat → Nat → List Nat
  | 0, _ => []
  | k + 1, n => beBytes k (n / 256) ++ [n % 256]

/-- Big-endian 4-byte serialization of a 32-bit word. -/
def u32be (n : Nat) : List Nat := beBytes 4 n

/-- SHA-256 padding: append `0x80`, zero bytes, then the 64-bit big-endian bit
length, reaching a multiple of 64 bytes. -/
def shaPad (msg : List Nat) : List Nat :=
  let len := msg.length
  let zeros := (119 - len % 64) % 64
  msg ++ [128] ++ List.replicate zeros 0 ++ beBytes 8 (len * 8)

/-- Group a byte list into big-endian 32-bit words. -/
def wordsOfBytes : List Nat → List Nat
  | b0 :: b1 :: b2 :: b3 :: rest =>
    (((b0 * 256 + b1) * 256 + b2) * 256 + b3) :: wordsOfBytes rest
  | _ => []

/-- Extend the 16-word message schedule to 64 words; `fuel` counts appended words. -/
def extendW : Nat → List Nat → List Nat
  | 0, w => w
  | fuel + 1, w =>
    let n := w.length
    let wt := w32 (ssig1 (w.getD (n - 2) 0) + w.getD (n - 7) 0 +
                   ssig0 (w.getD (n - 15) 0) + w.getD (n - 16) 0)
    extendW fuel (w ++ [wt])

/-- One SHA-256 compression round; the state is the 8-word list `[a,b,c,d,e,f,g,h]`. -/
def shaRound (s : List Nat) (kw : Nat × Nat) : List Nat :=
  match s with
  | [a, b, c, d, e, f, g, h] =>
    let t1 := w32 (h + bsig1 e + ch e f g + kw.1 + kw.2)
    let t2 := w32 (bsig0 a + maj a b c)
    [w32 (t1 + t2), a, b, c, w32 (d + t1), e, f, g]
  | other => other

/-- Compress one 64-byte block into the running hash value. -/
def compressBlock (h : List Nat) (block : List Nat) : List Nat :=
  let w := extendW 48 (wordsOfBytes block)
  let s := (shaK.zip w).foldl shaRound h
  (h.zip s).map (fun p => w32 (p.1 + p.2))

/-- Split a byte list into 64-byte blocks (`fuel` bounds the recursion). -/
def splitBlocks : Nat → List Nat → List (List Nat)
  | 0, _ => []
  | _ + 1, [] => []
  | fuel + 1, l => l.take 64 :: splitBlocks fuel (l.drop 64)

/-- SHA-256 of a byte list, as the 32-byte big-endian digest. -/
def sha256 (msg : List Nat) : List Nat :=
  let padded := shaPad msg
  let hv := (splitBlocks padded.length padded).foldl compressBlock shaH0
  hv.foldr (fun x acc => u32be x ++ acc) []

/-! ## Borsh primitives shared by the record serializers -/

/-- Little-endian 4-byte encoding of a `u32` value (borsh length prefix). -/
def u32le (n : Nat) : List Nat :=
  [n % 256, n / 256 % 256, n / 65536 % 256, n / 16777216 % 256]

/-- Borsh serialization of a byte string (`Vec<u8>`): `u32` length prefix then the bytes. -/
def borshBytes (l : List Nat) : List Nat := u32le l.length ++ l

/-- Borsh serialization of a string slice: `u32` byte-length prefix then the UTF-8
bytes — this is what `borsh::to_vec` produces for `&str`. -/
def borshStr (s : List Nat) : List Nat := u32le s.length ++ s

/-! ## Block identifiers (`state/src/block.rs`) -/

/-- Little-endian list of ASCII decimal digit bytes of `n`; `fuel` bounds the recursion. -/
def decDigitsAux : Nat → Nat → List Nat
  | 0, _ => []
  | fuel + 1, n => if n = 0 then [] else (48 + n % 10) :: decDigitsAux fuel (n / 10)

/-- ASCII bytes of the decimal representation of `n` (Rust `u64::to_string`). -/
def asciiDecimal (n : Nat) : List Nat :=
  if n = 0 then [48] else (decDigitsAux n n).reverse

/-- The bytes of `["block_", block_number.to_string()].concat()`. -/
def blockString (n : Nat) : List Nat :=
  [98, 108, 111, 99, 107, 95] ++ asciiDecimal n

/-- `Block::hash_id`: SHA-256 over the borsh serialization of the id string. -/
def hashId (s : List Nat) : List Nat := sha256 (borshStr s)

/-- `Block::get_id`: the digest identifying block `block_number`. -/
def Block.get_id (blockNumber : Nat) : List Nat := hashId (blockString blockNumber)

/-- The `Block` record of `state/src/block.rs`. -/
structure Block where
  id : List Nat
  block_number : Nat
  transactions_merkle_root : List Nat
  transaction_zk_proof : List Nat
  accounts_merkle_root : List Nat
  accounts_zk_proof : List Nat
  transactions : List (List Nat)
  accounts : List (List Nat)

/-- `Block::new`: the id is derived from the block number. -/
def Block.new (blockNumber : Nat) (txRoot txProof accRoot accProof : List Nat)
    (txs accs : List (List Nat)) : Block :=
  { id := Block.get_id blockNumber
    block_number := blockNumber
    transactions_merkle_root := txRoot
    transaction_zk_proof := txProof
    accounts_merkle_root := accRoot
    accounts_zk_proof := accProof
    transactions := txs
    accounts := accs }

/-- The next block number computed by `finalize`: `1` when no latest block exists,
otherwise the latest block number plus one. -/
def nextBlockNumber : Option Nat → Nat
  | none => 1
  | some b => b + 1

/-- Modelled from the spec: the block record assembled by
`StateCommitment::finalize`. The `Block::new` variant called there (second
argument `Block::get_id(next_block_number - 1)`) is not the `Block::new`
defined under `state/src/block.rs` — its definition is missing from the
sources — so its field layout follows the data model of the spec, which gives a
block a previous-block id equal to the key of block `n - 1`. -/
structure FinalizedBlock where
  block_number : Nat
  previous_block_id : List Nat
  transactions_merkle_root : List Nat
  accounts_merkle_root : List Nat
  proof : List Nat
  transaction_ids : List (List Nat)
  account_addresses : List (List Nat)

/-- The block built by `finalize` at `state_commitment_layer.rs:337-358`: the
previous-block id passed to the constructor is `Block::get_id(next_block_number - 1)`. -/
def finalizeBlock (latestBlockNumber : Option Nat) (txRoot accRoot proof : List Nat)
    (txIds accountAddresses : List (List Nat)) : FinalizedBlock :=
  let n := nextBlockNumber latestBlockNumber
  { block_number := n
    previous_block_id := Block.get_id (n - 1)
    transactions_merkle_root := txRoot
    accounts_merkle_root := accRoot
    proof := proof
    transaction_ids := txIds
    account_addresses := accountAddresses }

/-! ## The Merkle tree of `merkle/src/merkle_tree.rs`

A record type `T` enters only through its canonical borsh serialization, so the
definitions are parameterized by a serializer `ser : T → List Nat` standing for
`borsh::to_vec`. -/

/-- A tree node: a hash plus optional children, as in the source `Node<T>`. -/
inductive Node where
  | mk (hash : List Nat) (left : Option Node) (right : Option Node)

/-- The hash stored at a node. -/
def Node.hash : Node → List Nat
  | .mk h _ _ => h

/-- `Node::new_leaf`: hash of the serialization of the record, no children. -/
def Node.new_leaf {T : Type} (ser : T → List Nat) (state : T) : Node :=
  .mk (sha256 (ser state)) none none

/-- `Node::new_internal`: hash of the concatenated child hashes. -/
def Node.new_internal (left right : Node) : Node :=
  .mk (sha256 (left.hash ++ right.hash)) (some left) (some right)

/-- One level of the parent construction in `build_tree`: `chunks(2)`, duplicating the
last node of an odd-sized level as its own sibling. -/
def buildLevel : List Node → List Node
  | [] => []
  | [a] => [Node.new_internal a a]
  | a :: b :: rest => Node.new_internal a b :: buildLevel rest

theorem buildLevel_length : ∀ l : List Node, (buildLevel l).length = (l.length + 1) / 2
  | [] => by simp [buildLevel]
  | [_] => by simp [buildLevel]
  | _ :: _ :: rest => by
    simp only [buildLevel, List.length_cons, buildLevel_length rest]
    omega

/-- `MerkleTree::build_tree`: recursively collapse levels until one node remains. -/
def buildTree : List Node → Option Node
  | [] => none
  | [a] => some a
  | a :: b :: rest => buildTree (buildLevel (a :: b :: rest))
termination_by l => l.length
decreasing_by
  simp only [buildLevel_length, List.length_cons]
  omega

/-- The Merkle tree of the source: a root and a stored leaf vector. -/
structure MerkleTree where
  root : Option Node
  leaves : List Node

/-- `MerkleTree::new`: builds the root from the mapped leaves, but stores
`Default::default()` — the empty vector — as the `leaves` field. -/
def MerkleTree.new {T : Type} (ser : T → List Nat) (states : List T) : MerkleTree :=
  let leaves := states.map (Node.new_leaf ser)
  let root := buildTree leaves
  { root := root, leaves := [] }

/-- `MerkleTree::add_leaf`: push the new leaf and rebuild the root from the
stored leaves alone. -/
def MerkleTree.add_leaf {T : Type} (ser : T → List Nat) (tree : MerkleTree) (data : T) :
    MerkleTree :=
  let node := Node.new_leaf ser data
  let leaves := tree.leaves ++ [node]
  { root := buildTree leaves, leaves := leaves }

/-- `MerkleTree::root_hash`. -/
def MerkleTree.root_hash (tree : MerkleTree) : Option (List Nat) :=
  tree.root.map Node.hash

/-- Specification-side Merkle level over bare hashes, following the words of the spec:
internal nodes hash `left ‖ right`, the last hash of an odd level is duplicated. -/
def specLevel : List (List Nat) → List (List Nat)
  | [] => []
  | [a] => [sha256 (a ++ a)]
  | a :: b :: rest => sha256 (a ++ b) :: specLevel rest

theorem specLevel_length : ∀ l : List (List Nat), (specLevel l).length = (l.length + 1) / 2
  | [] => by simp [specLevel]
  | [_] => by simp [specLevel]
  | _ :: _ :: rest => by
    simp only [specLevel, List.length_cons, specLevel_length rest]
    omega

/-- Specification-side Merkle root over bare leaf hashes; absent exactly for the
empty leaf list. -/
def specRoot : List (List Nat) → Option (List Nat)
  | [] => none
  | [a] => some a
  | a :: b :: rest => specRoot (specLevel (a :: b :: rest))
termination_by l => l.length
decreasing_by
  simp only [specLevel_length, List.length_cons]
  omega

theorem buildLevel_hash : ∀ l : List Node,
    (buildLevel l).map Node.hash = specLevel (l.map Node.hash)
  | [] => rfl
  | [_] => rfl
  | _ :: _ :: rest => by
    simp only [buildLevel, specLevel, List.map_cons, Node.new_internal, Node.hash,
      buildLevel_hash rest]

theorem buildTree_hash : ∀ l : List Node,
    (buildTree l).map Node.hash = specRoot (l.map Node.hash)
  | [] => by simp [buildTree, specRoot]
  | [_] => by simp [buildTree, specRoot]
  | a :: b :: rest => by
    rw [buildTree, buildTree_hash (buildLevel (a :: b :: rest)), buildLevel_hash]
    simp only [List.map_cons, specRoot]
termination_by l => l.length
decreasing_by
  simp only [buildLevel_length, List.length_cons]
  omega

/-- Structural well-formedness of a node: the hash of an internal node is the SHA-256
of the concatenation of the hashes of its children, and a node has either both
children or none. -/
def Node.wfB : Node → Bool
  | .mk _ none none => true
  | .mk h (some l) (some r) => (h == sha256 (l.hash ++ r.hash)) && l.wfB && r.wfB
  | _ => false

/-- Well-formedness of an optional root. -/
def rootWFB : Option Node → Bool
  | none => true
  | some n => n.wfB

theorem new_internal_wfB {l r : Node} (hl : l.wfB = true) (hr : r.wfB = true) :
    (Node.new_internal l r).wfB = true := by
  simp [Node.new_internal, Node.wfB, hl, hr]

theorem buildLevel_wfB : ∀ l : List Node, (∀ n ∈ l, n.wfB = true) →
    ∀ n ∈ buildLevel l, n.wfB = true
  | [], _ => by intro n hn; simp [buildLevel] at hn
  | [a], h => by
    intro n hn
    simp only [buildLevel, List.mem_singleton] at hn
    subst hn
    exact new_internal_wfB (h a (by simp)) (h a (by simp))
  | a :: b :: rest, h => by
    intro n hn
    simp only [buildLevel, List.mem_cons] at hn
    rcases hn with hn | hn
    · subst hn
      exact new_internal_wfB (h a (by simp)) (h b (by simp))
    · exact buildLevel_wfB rest (fun m hm => h m (by simp [hm])) n hn

theorem buildTree_wfB : ∀ l : List Node, (∀ n ∈ l, n.wfB = true) →
    ∀ t, buildTree l = some t → t.wfB = true
  | [], _ => by intro t ht; simp [buildTree] at ht
  | [a], h => by
    intro t ht
    simp only [buildTree, Option.some_inj] at ht
    subst ht
    exact h a (by simp)
  | a :: b :: rest, h => by
    intro t ht
    rw [buildTree] at ht
    exact buildTree_wfB (buildLevel (a :: b :: rest)) (buildLevel_wfB _ h) t ht
termination_by l => l.length
decreasing_by
  simp only [buildLevel_length, List.length_cons]
  omega

/-! ## FIFO pools (`state_commitment_pool.rs`, `transaction_pool.rs`)

A pool is its `VecDeque` content, front first.  `get_next_chunk` /
`get_next_transactions` pop `min(chunk, pool_size as u32)` items off the front;
the `as u32` cast of the pool size is the `% 2 ^ 32` below. -/

/-- Pop `n` items off the front of the pool, returning them in pop order
together with the remaining pool. -/
def popFrontN {α : Type} : Nat → List α → List α × List α
  | 0, pool => ([], pool)
  | _ + 1, [] => ([], [])
  | n + 1, x :: rest =>
    let p := popFrontN n rest
    (x :: p.1, p.2)

/-- `StateCommitmentPool::get_next_chunk`. -/
def StateCommitmentPool.get_next_chunk {α : Type} (chunk : Nat) (pool : List α) :
    List α × List α :=
  if pool.length = 0 then ([], pool)
  else popFrontN (min chunk (pool.length % 4294967296)) pool

/-- `TransactionPool::get_next_transactions` (same dequeue loop). -/
def TransactionPool.get_next_transactions {α : Type} (chunk : Nat) (pool : List α) :
    List α × List α :=
  if pool.length = 0 then ([], pool)
  else popFrontN (min chunk (pool.length % 4294967296)) pool

theorem popFrontN_eq_take_drop {α : Type} :
    ∀ (n : Nat) (pool : List α), n ≤ pool.length →
      popFrontN n pool = (pool.take n, pool.drop n)
  | 0, pool, _ => by simp [popFrontN]
  | n + 1, [], h => by simp at h
  | n + 1, x :: rest, h => by
    have ih := popFrontN_eq_take_drop n rest (by simpa using h)
    simp [popFrontN, ih]

/-! ## The optimistic-commitment registry (`state_commitment_layer.rs`)

Registry entries are pairs of a 32-byte state root and the age of the entry at the
polling tick, in nanoseconds (the `timestamp.elapsed()` of a `CommitmentEntry`).
`tickTimeoutEvents` is the timeout branch of
`start_optimistic_commitment_processor`: it scans the registry and sends a
`TimeOut(state_root)` message for every entry whose elapsed time satisfies the
comparison in the source `elapsed < Duration::from_secs(optimistic_timeout)`. -/

/-- The `TimeOut` events emitted on one polling tick, given the timeout in
seconds and the registry entries as (state root, age in nanoseconds) pairs. -/
def tickTimeoutEvents (timeoutSecs : Nat) (registry : List (List Nat × Nat)) :
    List (List Nat) :=
  (registry.filter (fun e => e.2 < timeoutSecs * 1000000000)).map (fun e => e.1)

/-- Association-list lookup by state root. -/
def lookupKey {P : Type} (r : List Nat) : List (List Nat × P) → Option P
  | [] => none
  | (k, v) :: rest => if k = r then some v else lookupKey r rest

/-- Association-list removal by state root (`HashMap::remove` / store delete). -/
def eraseKey {P : Type} (r : List Nat) : List (List Nat × P) → List (List Nat × P)
  | [] => []
  | (k, v) :: rest => if k = r then eraseKey r rest else (k, v) :: eraseKey r rest

/-- One operation of the `TimeOut` arm of the main loop, as executed in order
by the main-loop task: lock operations on the shared `commitments` RwLock and
the data accesses they guard. -/
inductive ArmInstr where
  | acquireRead
  | acquireWrite
  | releaseRead
  | releaseWrite
  | lookupEntry (r : List Nat)
  | verifyValidator (ok : Bool)
  | deleteStoreRecord (r : List Nat)
  | removeRegistryEntry (r : List Nat)
deriving DecidableEq

/-- State the arm acts on: the reader count and writer flag of the
`commitments` RwLock, the in-memory registry, and the persistent optimistic
store. -/
structure ArmState (P : Type) where
  readers : Nat
  writer : Bool
  registry : List (List Nat × P)
  store : List (List Nat × P)
deriving DecidableEq

/-- Result of one instruction. -/
inductive StepResult (P : Type) where
  | ok (s : ArmState P)
  | blocked
  | panicked

/-- One instruction step. An acquisition that cannot proceed is `blocked`: a
write acquisition waits until every read guard is released. -/
def stepInstr {P : Type} (i : ArmInstr) (s : ArmState P) : StepResult P :=
  match i with
  | .acquireRead =>
    if s.writer then .blocked else .ok { s with readers := s.readers + 1 }
  | .acquireWrite =>
    if s.writer ∨ s.readers ≠ 0 then .blocked else .ok { s with writer := true }
  | .releaseRead => .ok { s with readers := s.readers - 1 }
  | .releaseWrite => .ok { s with writer := false }
  | .lookupEntry r =>
    match lookupKey r s.registry with
    | none => .panicked
    | some _ => .ok s
  | .verifyValidator _ => .ok s
  | .deleteStoreRecord r => .ok { s with store := eraseKey r s.store }
  | .removeRegistryEntry r => .ok { s with registry := eraseKey r s.registry }

/-- Result of running the arm to completion, blockage or panic. -/
inductive RunResult (P : Type) where
  | completed (s : ArmState P)
  | blockedAt (remaining : List ArmInstr) (s : ArmState P)
  | panicked (s : ArmState P)
deriving DecidableEq

/-- Run the instructions of one task in order. When an acquisition blocks, the
run is over: every guard blocking it is held by this same task — the only
holder in the run — so no future release can ever satisfy the wait, and the
remaining instructions never execute. -/
def runSingleTask {P : Type} : List ArmInstr → ArmState P → RunResult P
  | [], s => .completed s
  | i :: rest, s =>
    match stepInstr i s with
    | .ok s2 => runSingleTask rest s2
    | .blocked => .blockedAt (i :: rest) s
    | .panicked => .panicked s

/-- The `TimeOut` arm of `StateCommitter::start` (lines 506-512) together with
the body of `remove_commitment` (lines 395-400) it calls, as the ordered lock
and data operations of the main-loop task: take the `commitments` read guard
(line 507), look up the entry (`expect`, line 509), run the validator
round-trip (line 510, its outcome `ok` inspected by nothing here), then inside
`remove_commitment` await the write lock on the same RwLock (line 396), delete
the persistent record, remove the registry entry, drop the write guard, and
only at the closing brace of the arm (line 512) drop the read guard. -/
def timeoutArmProgram (r : List Nat) (ok : Bool) : List ArmInstr :=
  [.acquireRead, .lookupEntry r, .verifyValidator ok, .acquireWrite,
   .deleteStoreRecord r, .removeRegistryEntry r, .releaseWrite, .releaseRead]

/-- Handling of a `TimeOut(r)` event by the main loop: the arm runs as one task
starting from an unlocked RwLock and the given registry and store. -/
def handleTimeoutEvent {P : Type} (registry store : List (List Nat × P))
    (r : List Nat) (validatorFinalized : Bool) : RunResult P :=
  runSingleTask (timeoutArmProgram r validatorFinalized)
    ⟨0, false, registry, store⟩

theorem buildTree_eq_none : ∀ l : List Node, buildTree l = none ↔ l = []
  | [] => by simp [buildTree]
  | [a] => by simp [buildTree]
  | a :: b :: rest => by
    rw [buildTree]
    constructor
    · intro h
      have := (buildTree_eq_none (buildLevel (a :: b :: rest))).mp h
      have hlen := buildLevel_length (a :: b :: rest)
      rw [this] at hlen
      simp at hlen
      omega
    · intro h
      simp at h
termination_by l => l.length
decreasing_by
  simp only [buildLevel_length, List.length_cons]
  omega

/-! ## Transactions (`state/src/transaction.rs`)

The Trollup wire form and the Solana-side transaction, with byte-level fields:
a `Signature` is its 64 bytes, a `Pubkey` and a `Hash` their 32 bytes, a
`MessageHeader` its three counters. -/

/-- The borsh wire struct `TrollupCompileInstruction`. -/
structure TrollupCompileInstruction where
  program_id_index : Nat
  accounts : List Nat
  data : List Nat
deriving DecidableEq

/-- The borsh wire struct `TrollupMessage`; `header` is the 3-byte array. -/
structure TrollupMessage where
  header : List Nat
  account_keys : List (List Nat)
  recent_blockhash : List Nat
  instructions : List TrollupCompileInstruction
deriving DecidableEq

/-- The borsh wire struct `TrollupTransaction`. -/
structure TrollupTransaction where
  optimistic : Bool
  signatures : List (List Nat)
  message : TrollupMessage
deriving DecidableEq

/-- `solana_sdk::message::MessageHeader`. -/
structure MessageHeader where
  num_required_signatures : Nat
  num_readonly_signed_accounts : Nat
  num_readonly_unsigned_accounts : Nat
deriving DecidableEq

/-- `solana_sdk::instruction::CompiledInstruction`. -/
structure CompiledInstruction where
  program_id_index : Nat
  accounts : List Nat
  data : List Nat
deriving DecidableEq

/-- `solana_sdk::message::Message`, with account keys and blockhash as raw bytes. -/
structure Message where
  header : MessageHeader
  account_keys : List (List Nat)
  recent_blockhash : List Nat
  instructions : List CompiledInstruction
deriving DecidableEq

/-- `solana_sdk::transaction::Transaction`, with signatures as raw 64-byte lists. -/
structure Transaction where
  signatures : List (List Nat)
  message : Message
deriving DecidableEq

/-- `message_header_to_bytes`. -/
def message_header_to_bytes (h : MessageHeader) : List Nat :=
  [h.num_required_signatures, h.num_readonly_signed_accounts, h.num_readonly_unsigned_accounts]

/-- `message_header_from_bytes` (indexes the 3-byte array). -/
def message_header_from_bytes (bytes : List Nat) : MessageHeader :=
  { num_required_signatures := bytes.getD 0 0
    num_readonly_signed_accounts := bytes.getD 1 0
    num_readonly_unsigned_accounts := bytes.getD 2 0 }

/-- `From<&CompiledInstruction> for TrollupCompileInstruction`. -/
def trollupOfInstruction (ix : CompiledInstruction) : TrollupCompileInstruction :=
  { program_id_index := ix.program_id_index, accounts := ix.accounts, data := ix.data }

/-- `From<&Message> for TrollupMessage`. -/
def trollupOfMessage (msg : Message) : TrollupMessage :=
  { header := message_header_to_bytes msg.header
    account_keys := msg.account_keys
    recent_blockhash := msg.recent_blockhash
    instructions := msg.instructions.map trollupOfInstruction }

/-- `From<&Transaction> for TrollupTransaction` (the `optimistic` flag is `false`). -/
def trollupOfTransaction (tx : Transaction) : TrollupTransaction :=
  { optimistic := false
    signatures := tx.signatures
    message := trollupOfMessage tx.message }

/-- The Solana transaction rebuilt by `deserialize_transaction` from the wire struct. -/
def transactionOfTrollup (btx : TrollupTransaction) : Transaction :=
  { signatures := btx.signatures
    message :=
      { header := message_header_from_bytes btx.message.header
        account_keys := btx.message.account_keys
        recent_blockhash := btx.message.recent_blockhash
        instructions := btx.message.instructions.map (fun ix =>
          { program_id_index := ix.program_id_index
            accounts := ix.accounts
            data := ix.data }) } }

/-! ### Borsh encoding of the wire structs -/

/-- Borsh `bool`: a single `0`/`1` byte. -/
def borshBool (b : Bool) : List Nat := [if b then 1 else 0]

/-- Borsh `Vec<T>`: `u32` length prefix, then the elements in order. -/
def borshVec {α : Type} (enc : α → List Nat) (l : List α) : List Nat :=
  u32le l.length ++ (l.map enc).foldr (fun x acc => x ++ acc) []

/-- Borsh encoding of `TrollupCompileInstruction`. -/
def encInstruction (ix : TrollupCompileInstruction) : List Nat :=
  [ix.program_id_index] ++ borshBytes ix.accounts ++ borshBytes ix.data

/-- Borsh encoding of `TrollupMessage`: fixed 3-byte header, key vector,
fixed 32-byte blockhash, instruction vector. -/
def encMessage (m : TrollupMessage) : List Nat :=
  m.header ++ borshVec id m.account_keys ++ m.recent_blockhash ++
    borshVec encInstruction m.instructions

/-- Borsh encoding of `TrollupTransaction`. -/
def encTransaction (t : TrollupTransaction) : List Nat :=
  borshBool t.optimistic ++ borshVec id t.signatures ++ encMessage t.message

/-- `serialize_transaction`: convert to the wire struct, then borsh-encode. -/
def serialize_transaction (tx : Transaction) : List Nat :=
  encTransaction (trollupOfTransaction tx)

/-! ### Borsh decoding -/

/-- Read `n` raw bytes. -/
def readBytes : Nat → List Nat → Option (List Nat × List Nat)
  | 0, rest => some ([], rest)
  | _ + 1, [] => none
  | n + 1, b :: rest =>
    match readBytes n rest with
    | none => none
    | some (bs, rem) => some (b :: bs, rem)

/-- Read a little-endian `u32`. -/
def readU32 : List Nat → Option (Nat × List Nat)
  | b0 :: b1 :: b2 :: b3 :: rest =>
    some (b0 + 256 * b1 + 65536 * b2 + 16777216 * b3, rest)
  | _ => none

/-- Read a borsh `bool` byte. -/
def readBool : List Nat → Option (Bool × List Nat)
  | 0 :: rest => some (false, rest)
  | 1 :: rest => some (true, rest)
  | _ => none

/-- Read a single byte (`u8`). -/
def readU8 : List Nat → Option (Nat × List Nat)
  | b :: rest => some (b, rest)
  | [] => none

/-- Read `n` elements with the given element reader. -/
def readElems {α : Type} (readElem : List Nat → Option (α × List Nat)) :
    Nat → List Nat → Option (List α × List Nat)
  | 0, rest => some ([], rest)
  | n + 1, rest =>
    match readElem rest with
    | none => none
    | some (x, rest') =>
      match readElems readElem n rest' with
      | none => none
      | some (xs, rem) => some (x :: xs, rem)

/-- Read a borsh `Vec`: `u32` count, then that many elements. -/
def readVec {α : Type} (readElem : List Nat → Option (α × List Nat))
    (l : List Nat) : Option (List α × List Nat) :=
  match readU32 l with
  | none => none
  | some (n, rest) => readElems readElem n rest

/-- Read a borsh `Vec<u8>`. -/
def readByteVec (l : List Nat) : Option (List Nat × List Nat) :=
  match readU32 l with
  | none => none
  | some (n, rest) => readBytes n rest

/-- Decode a `TrollupCompileInstruction`. -/
def readInstruction (l : List Nat) : Option (TrollupCompileInstruction × List Nat) :=
  match readU8 l with
  | none => none
  | some (pid, r1) =>
    match readByteVec r1 with
    | none => none
    | some (accounts, r2) =>
      match readByteVec r2 with
      | none => none
      | some (data, r3) =>
        some ({ program_id_index := pid, accounts := accounts, data := data }, r3)

/-- Decode a `TrollupMessage`. -/
def readMessage (l : List Nat) : Option (TrollupMessage × List Nat) :=
  match readBytes 3 l with
  | none => none
  | some (header, r1) =>
    match readVec (readBytes 32) r1 with
    | none => none
    | some (keys, r2) =>
      match readBytes 32 r2 with
      | none => none
      | some (blockhash, r3) =>
        match readVec readInstruction r3 with
        | none => none
        | some (instrs, r4) =>
          some ({ header := header, account_keys := keys,
                  recent_blockhash := blockhash, instructions := instrs }, r4)

/-- Decode a `TrollupTransaction`. -/
def readTransaction (l : List Nat) : Option (TrollupTransaction × List Nat) :=
  match readBool l with
  | none => none
  | some (opt, r1) =>
    match readVec (readBytes 64) r1 with
    | none => none
    | some (sigs, r2) =>
      match readMessage r2 with
      | none => none
      | some (msg, r3) =>
        some ({ optimistic := opt, signatures := sigs, message := msg }, r3)

/-- `deserialize_transaction`: borsh-decode the wire struct (ignoring trailing
bytes, as `BorshDeserialize::deserialize` on a mutable slice does), then
rebuild the Solana transaction; `none` models the error return. -/
def deserialize_transaction (data : List Nat) : Option Transaction :=
  match readTransaction data with
  | none => none
  | some (btx, _) => some (transactionOfTrollup btx)

/-- `TrollupTransaction::get_key` hashes `signatures[0]`; the indexing panics on
an empty signature vector, modelled by `none`. -/
def TrollupTransaction.getKeyOpt (t : TrollupTransaction) : Option (List Nat) :=
  match t.signatures with
  | [] => none
  | s :: _ => some (sha256 s)

/-! ## Base58 (the `bs58` encoding used for signature path parameters) -/

/-- The base58 alphabet `123456789ABCDEFGHJKLMNPQRSTUVWXYZabcdefghijkmnopqrstuvwxyz`,
as ASCII codes. -/
def base58Alphabet : List Nat :=
  [49, 50, 51, 52, 53, 54, 55, 56, 57,
   65, 66, 67, 68, 69, 70, 71, 72, 74, 75, 76, 77, 78,
   80, 81, 82, 83, 84, 85, 86, 87, 88, 89, 90,
   97, 98, 99, 100, 101, 102, 103, 104, 105, 106, 107,
   109, 110, 111, 112, 113, 114, 115, 116, 117, 118, 119, 120, 121, 122]

/-- Big-endian interpretation of a byte string as a natural number. -/
def beNat (bytes : List Nat) : Nat := bytes.foldl (fun acc b => acc * 256 + b) 0

/-- Little-endian base-58 digit values of `n`; `fuel` bounds the recursion. -/
def b58DigitsAux : Nat → Nat → List Nat
  | 0, _ => []
  | fuel + 1, n => if n = 0 then [] else (n % 58) :: b58DigitsAux fuel (n / 58)

/-- Count of leading zero bytes. -/
def countLeadingZeros : List Nat → Nat
  | 0 :: rest => countLeadingZeros rest + 1
  | _ => 0

/-- Base58 encoding of a byte string (the `bs58` wire form): one `1` per leading
zero byte, then the big-endian base-58 digits of the remaining value. -/
def base58Encode (bytes : List Nat) : List Nat :=
  let n := beNat bytes
  List.replicate (countLeadingZeros bytes) 49 ++
    (b58DigitsAux (2 * bytes.length) n).reverse.map (fun d => base58Alphabet.getD d 0)

/-! ## The transaction read endpoint (`api/src/transaction_handler.rs`) -/

/-- The handler reply: the not-found sentinel string or the transaction details. -/
inductive TransactionReply where
  | notFound (signature : List Nat)
  | details (tx : TrollupTransaction)
deriving DecidableEq

/-- `TransactionHandler::get_transaction`: hash the UTF-8 bytes of the path
parameter itself (`signature.as_bytes()`) and look that digest up in the
transaction store. -/
def TransactionHandler.get_transaction (store : List (List Nat × TrollupTransaction))
    (signature : List Nat) : TransactionReply :=
  let hash := sha256 signature
  match lookupKey hash store with
  | none => .notFound signature
  | some tx => .details tx

/-! ## Base64 and the validator client (`validator_client.rs`) -/

/-- The standard base64 alphabet (`general_purpose::STANDARD`), as ASCII codes. -/
def b64StdAlphabet : List Nat :=
  [65, 66, 67, 68, 69, 70, 71, 72, 73, 74, 75, 76, 77, 78, 79, 80, 81, 82, 83,
   84, 85, 86, 87, 88, 89, 90,
   97, 98, 99, 100, 101, 102, 103, 104, 105, 106, 107, 108, 109, 110, 111, 112,
   113, 114, 115, 116, 117, 118, 119, 120, 121, 122,
   48, 49, 50, 51, 52, 53, 54, 55, 56, 57, 43, 47]

/-- The url-safe base64 alphabet (`-` and `_` in place of `+` and `/`). -/
def b64UrlAlphabet : List Nat :=
  [65, 66, 67, 68, 69, 70, 71, 72, 73, 74, 75, 76, 77, 78, 79, 80, 81, 82, 83,
   84, 85, 86, 87, 88, 89, 90,
   97, 98, 99, 100, 101, 102, 103, 104, 105, 106, 107, 108, 109, 110, 111, 112,
   113, 114, 115, 116, 117, 118, 119, 120, 121, 122,
   48, 49, 50, 51, 52, 53, 54, 55, 56, 57, 45, 95]

/-- Base64 encoding over a given alphabet, with `=` padding. -/
def b64Groups (alpha : List Nat) : List Nat → List Nat
  | [] => []
  | [b0] =>
    [alpha.getD (b0 >>> 2) 0, alpha.getD ((b0 &&& 3) <<< 4) 0, 61, 61]
  | [b0, b1] =>
    [alpha.getD (b0 >>> 2) 0, alpha.getD (((b0 &&& 3) <<< 4) ||| (b1 >>> 4)) 0,
     alpha.getD ((b1 &&& 15) <<< 2) 0, 61]
  | b0 :: b1 :: b2 :: rest =>
    [alpha.getD (b0 >>> 2) 0, alpha.getD (((b0 &&& 3) <<< 4) ||| (b1 >>> 4)) 0,
     alpha.getD (((b1 &&& 15) <<< 2) ||| (b2 >>> 6)) 0, alpha.getD (b2 &&& 63) 0] ++
      b64Groups alpha rest

/-- `general_purpose::STANDARD.encode`. -/
def base64Std (bytes : List Nat) : List Nat := b64Groups b64StdAlphabet bytes

/-- Url-safe base64 (`general_purpose::URL_SAFE`), the encoding the spec mandates
and the handler of the validator decodes. -/
def base64Url (bytes : List Nat) : List Nat := b64Groups b64UrlAlphabet bytes

/-- Request path of `ValidatorClient::prove`:
`format!("{}/prove/{}", base_url, general_purpose::STANDARD.encode(new_state_root))`,
as UTF-8 bytes. -/
def ValidatorClient.provePath (baseUrl : List Nat) (newStateRoot : List Nat) : List Nat :=
  baseUrl ++ [47, 112, 114, 111, 118, 101, 47] ++ base64Std newStateRoot

/-! ## Round-trip lemmas for the borsh coders -/

/-- Well-formedness of a Solana transaction for serialization: fixed-width
fields have their widths, and every vector is short enough for its `u32`
length prefix. -/
def TxWF (t : Transaction) : Prop :=
  t.signatures.length < 4294967296 ∧
  (∀ s ∈ t.signatures, s.length = 64) ∧
  t.message.account_keys.length < 4294967296 ∧
  (∀ k ∈ t.message.account_keys, k.length = 32) ∧
  t.message.recent_blockhash.length = 32 ∧
  t.message.instructions.length < 4294967296 ∧
  (∀ ix ∈ t.message.instructions,
    ix.accounts.length < 4294967296 ∧ ix.data.length < 4294967296)

instance (t : Transaction) : Decidable (TxWF t) := by
  unfold TxWF
  infer_instance

theorem readBytes_append : ∀ (l rest : List Nat),
    readBytes l.length (l ++ rest) = some (l, rest)
  | [], rest => by simp [readBytes]
  | b :: l, rest => by
    simp [readBytes, readBytes_append l rest]

theorem readBytes_of_length {n : Nat} {l : List Nat} (h : l.length = n)
    (rest : List Nat) : readBytes n (l ++ rest) = some (l, rest) := by
  subst h
  exact readBytes_append l rest

theorem readU32_u32le {n : Nat} (h : n < 4294967296) (rest : List Nat) :
    readU32 (u32le n ++ rest) = some (n, rest) := by
  simp only [u32le, List.cons_append, List.nil_append, readU32, Option.some_inj,
    Prod.mk.injEq]
  exact ⟨by omega, trivial⟩

theorem readBool_enc (b : Bool) (rest : List Nat) :
    readBool (borshBool b ++ rest) = some (b, rest) := by
  cases b <;> simp [borshBool, readBool]

theorem readElems_enc {α : Type} (readElem : List Nat → Option (α × List Nat))
    (enc : α → List Nat) :
    ∀ (l : List α), (∀ x ∈ l, ∀ r : List Nat, readElem (enc x ++ r) = some (x, r)) →
      ∀ rest : List Nat,
        readElems readElem l.length ((l.map enc).foldr (fun x acc => x ++ acc) [] ++ rest) =
          some (l, rest)
  | [], _, rest => by simp [readElems]
  | x :: l, h, rest => by
    have hx := h x (by simp)
    have hl := readElems_enc readElem enc l (fun y hy r => h y (by simp [hy]) r) rest
    simp only [List.map_cons, List.foldr_cons, List.length_cons, List.append_assoc, readElems,
      hx ((l.map enc).foldr (fun x acc => x ++ acc) [] ++ rest), hl]

theorem readVec_enc {α : Type} (readElem : List Nat → Option (α × List Nat))
    (enc : α → List Nat) (l : List α) (hlen : l.length < 4294967296)
    (h : ∀ x ∈ l, ∀ r : List Nat, readElem (enc x ++ r) = some (x, r)) (rest : List Nat) :
    readVec readElem (borshVec enc l ++ rest) = some (l, rest) := by
  simp only [borshVec, readVec, List.append_assoc, readU32_u32le hlen]
  exact readElems_enc readElem enc l h rest

theorem readByteVec_enc {bytes : List Nat} (h : bytes.length < 4294967296)
    (rest : List Nat) : readByteVec (borshBytes bytes ++ rest) = some (bytes, rest) := by
  simp only [borshBytes, readByteVec, List.append_assoc, readU32_u32le h]
  exact readBytes_append bytes rest

theorem readInstruction_enc {ix : TrollupCompileInstruction}
    (ha : ix.accounts.length < 4294967296) (hd : ix.data.length < 4294967296)
    (rest : List Nat) : readInstruction (encInstruction ix ++ rest) = some (ix, rest) := by
  simp only [encInstruction, readInstruction, List.append_assoc, List.cons_append,
    List.nil_append, readU8, readByteVec_enc ha, readByteVec_enc hd]

theorem readMessage_enc {m : TrollupMessage} (hh : m.header.length = 3)
    (hkl : m.account_keys.length < 4294967296) (hk : ∀ k ∈ m.account_keys, k.length = 32)
    (hb : m.recent_blockhash.length = 32) (hil : m.instructions.length < 4294967296)
    (hi : ∀ ix ∈ m.instructions,
      ix.accounts.length < 4294967296 ∧ ix.data.length < 4294967296)
    (rest : List Nat) : readMessage (encMessage m ++ rest) = some (m, rest) := by
  have hkeys : readVec (readBytes 32)
      (borshVec id m.account_keys ++ (m.recent_blockhash ++
        (borshVec encInstruction m.instructions ++ rest))) =
      some (m.account_keys, m.recent_blockhash ++
        (borshVec encInstruction m.instructions ++ rest)) :=
    readVec_enc _ id m.account_keys hkl
      (fun k hmem r => by simpa using readBytes_of_length (hk k hmem) r) _
  have hinstrs : readVec readInstruction (borshVec encInstruction m.instructions ++ rest) =
      some (m.instructions, rest) :=
    readVec_enc _ encInstruction m.instructions hil
      (fun ix hmem r => readInstruction_enc (hi ix hmem).1 (hi ix hmem).2 r) rest
  simp only [encMessage, readMessage, List.append_assoc, readBytes_of_length hh, hkeys,
    readBytes_of_length hb, hinstrs]

theorem readTransaction_enc {t : TrollupTransaction}
    (hsl : t.signatures.length < 4294967296) (hs : ∀ s ∈ t.signatures, s.length = 64)
    (hh : t.message.header.length = 3)
    (hkl : t.message.account_keys.length < 4294967296)
    (hk : ∀ k ∈ t.message.account_keys, k.length = 32)
    (hb : t.message.recent_blockhash.length = 32)
    (hil : t.message.instructions.length < 4294967296)
    (hi : ∀ ix ∈ t.message.instructions,
      ix.accounts.length < 4294967296 ∧ ix.data.length < 4294967296)
    (rest : List Nat) : readTransaction (encTransaction t ++ rest) = some (t, rest) := by
  have hsigs : readVec (readBytes 64) (borshVec id t.signatures ++ (encMessage t.message ++ rest)) =
      some (t.signatures, encMessage t.message ++ rest) :=
    readVec_enc _ id t.signatures hsl
      (fun s hmem r => by simpa using readBytes_of_length (hs s hmem) r) _
  simp only [encTransaction, readTransaction, List.append_assoc, readBool_enc, hsigs,
    readMessage_enc hh hkl hk hb hil hi]

theorem transactionOfTrollup_trollupOf (tx : Transaction) :
    transactionOfTrollup (trollupOfTransaction tx) = tx := by
  obtain ⟨sigs, ⟨⟨a, b, c⟩, keys, bh, instrs⟩⟩ := tx
  simp only [trollupOfTransaction, trollupOfMessage, message_header_to_bytes,
    transactionOfTrollup, message_header_from_bytes, List.map_map]
  refine congrArg (Transaction.mk sigs) ?_
  simp only [List.getD_cons_zero, List.getD_cons_succ]
  refine congrArg (Message.mk ⟨a, b, c⟩ keys bh) ?_
  rw [show ((fun ix : TrollupCompileInstruction =>
      CompiledInstruction.mk ix.program_id_index ix.accounts ix.data) ∘ trollupOfInstruction) =
      id from funext fun ix => by cases ix; rfl]
  exact List.map_id instrs

/-! ## Decimal representation, related to the Mathlib digit spec -/

/-- Specification-side ASCII rendering of the block id string: the bytes of
`block_` followed by the decimal digits of `n`, most significant first, written
via `Nat.digits`. -/
def specBlockAscii (n : Nat) : List Nat :=
  [98, 108, 111, 99, 107, 95] ++
    (if n = 0 then [48] else ((Nat.digits 10 n).map (fun d => 48 + d)).reverse)

theorem decDigitsAux_eq_digits :
    ∀ (fuel n : Nat), n ≤ fuel →
      decDigitsAux fuel n = (Nat.digits 10 n).map (fun d => 48 + d)
  | 0, n, h => by
    have hn : n = 0 := Nat.le_zero.mp h
    subst hn
    simp [decDigitsAux]
  | fuel + 1, n, h => by
    by_cases hn : n = 0
    · subst hn
      simp [decDigitsAux]
    · have hpos : 0 < n := Nat.pos_of_ne_zero hn
      have hrec : n / 10 ≤ fuel := by
        have := Nat.div_lt_self hpos (by norm_num : (1 : Nat) < 10)
        omega
      rw [Nat.digits_def' (by norm_num : (1 : Nat) < 10) hpos]
      simp [decDigitsAux, hn, decDigitsAux_eq_digits fuel (n / 10) hrec]

theorem asciiDecimal_eq_spec (n : Nat) :
    asciiDecimal n =
      (if n = 0 then [48] else ((Nat.digits 10 n).map (fun d => 48 + d)).reverse) := by
  by_cases hn : n = 0
  · simp [asciiDecimal, hn]
  · simp [asciiDecimal, hn, decDigitsAux_eq_digits n n (Nat.le_refl n)]

theorem blockString_eq_spec (n : Nat) : blockString n = specBlockAscii n := by
  simp [blockString, specBlockAscii, asciiDecimal_eq_spec]

/-! ## Concrete inputs used by the claim evaluations -/

/-- A 64-byte first signature used to exercise the transaction read endpoint. -/
def c5Signature : List Nat := List.replicate 64 1

/-- A stored transaction whose first signature is `c5Signature`. -/
def c5Transaction : TrollupTransaction :=
  ⟨false, [c5Signature], ⟨[1, 0, 0], [], List.replicate 32 0, []⟩⟩

/-- A state root whose leading byte forces the 62nd base64 alphabet symbol. -/
def c6Root : List Nat := 251 :: List.replicate 31 0

/-- A concrete well-formed Solana transaction. -/
def c7Transaction : Transaction :=
  ⟨[List.replicate 64 2],
   ⟨⟨1, 0, 0⟩, [List.replicate 32 3], List.replicate 32 4, [⟨0, [0], [9]⟩]⟩⟩

/-- A concrete wire transaction with one signature. -/
def c10Transaction : TrollupTransaction :=
  ⟨false, [List.replicate 64 7], ⟨[1, 0, 0], [], List.replicate 32 0, []⟩⟩

/-! ## The claims -/

/-- C1: the claim says a polling tick emits `TimeOut(state_root)` exactly for
registry entries whose age exceeds the `optimistic_timeout` threshold and never
for younger entries. The source compares
`entry.timestamp.elapsed() < Duration::from_secs(CONFIG.optimistic_timeout)` —
the reversed comparison — so at the default threshold of 60 seconds an entry
aged 10 seconds receives a `TimeOut` event while an entry aged 120 seconds
receives none, contradicting the claim and the adjacent `Old entry found` log
line of the source itself. -/
theorem C1_tick_reversed_comparison :
    tickTimeoutEvents 60 [(List.replicate 32 1, 10 * 1000000000)] = [List.replicate 32 1] ∧
    tickTimeoutEvents 60 [(List.replicate 32 2, 120 * 1000000000)] = [] := by
  decide

/-- C2: the claim says that after the main loop handles a `TimeOut(r)` event
whose validator round-trip fails, the registry entry keyed by `r` remains in
the pending registry and persistent store so it can be retried on a later
cycle, and is removed only on successful finalization. In the source the arm
still holds the `commitments` read guard — taken at line 507 and dropped only
at line 512 — when `remove_commitment` awaits the write lock on the same
RwLock at line 396; the write acquisition waits for that very reader, held by
the blocked task itself, so the arm blocks forever at the acquisition. With
one registered entry the run stops in front of `acquireWrite` with registry
and store unchanged — the entry still present and never removed — for a
failing and equally for a succeeding round-trip, and the event handling never
completes, so no later cycle can retry the entry. -/
theorem C2_timeout_arm_deadlocks :
    (handleTimeoutEvent ([(List.replicate 32 5, 0)] : List (List Nat × Nat))
        [(List.replicate 32 5, 0)] (List.replicate 32 5) false =
      RunResult.blockedAt
        [.acquireWrite, .deleteStoreRecord (List.replicate 32 5),
         .removeRegistryEntry (List.replicate 32 5), .releaseWrite, .releaseRead]
        ⟨1, false, [(List.replicate 32 5, 0)], [(List.replicate 32 5, 0)]⟩) ∧
    (handleTimeoutEvent ([(List.replicate 32 5, 0)] : List (List Nat × Nat))
        [(List.replicate 32 5, 0)] (List.replicate 32 5) true =
      RunResult.blockedAt
        [.acquireWrite, .deleteStoreRecord (List.replicate 32 5),
         .removeRegistryEntry (List.replicate 32 5), .releaseWrite, .releaseRead]
        ⟨1, false, [(List.replicate 32 5, 0)], [(List.replicate 32 5, 0)]⟩) ∧
    lookupKey (List.replicate 32 5)
      ([(List.replicate 32 5, 0)] : List (List Nat × Nat)) = some 0 := by
  decide

/-- C3 counterexample: `Block::get_id(0)` differs from the SHA-256 of the bare
ASCII bytes of `block_0`, because `hash_id` hashes `borsh::to_vec` of the
string, which prepends a 4-byte little-endian length. -/
theorem C3_counterexample :
    Block.get_id 0 ≠ sha256 [98, 108, 111, 99, 107, 95, 48] := by
  decide

/-- C3 (amended): for every block number `n`, the id of `Block n` equals the
SHA-256 digest of the borsh serialization of the ASCII string `block_`
concatenated with the decimal digit representation of `n` — that is, of the
4-byte little-endian byte-length prefix followed by those ASCII bytes — and the
block assembled by `finalize` carries a previous-block id computed by the same
formula for the preceding block number. -/
theorem C3_block_id (n : Nat) (latest : Option Nat)
    (txRoot txProof accRoot accProof proof : List Nat)
    (txs accs txIds addrs : List (List Nat)) :
    (Block.new n txRoot txProof accRoot accProof txs accs).id =
      sha256 (u32le (specBlockAscii n).length ++ specBlockAscii n) ∧
    (finalizeBlock latest txRoot accRoot proof txIds addrs).previous_block_id =
      sha256 (u32le (specBlockAscii (nextBlockNumber latest - 1)).length ++
        specBlockAscii (nextBlockNumber latest - 1)) := by
  constructor
  · show Block.get_id n = _
    rw [Block.get_id, hashId, borshStr, blockString_eq_spec]
  · show Block.get_id (nextBlockNumber latest - 1) = _
    rw [Block.get_id, hashId, borshStr, blockString_eq_spec]

/-- C4: for every record list (records enter through their canonical
serialization `ser`), the tree built by `MerkleTree::new` has root hash equal
to the specification-side Merkle root over the leaf hashes `sha256 (ser s)` —
the bottom-up pairing that duplicates the last hash of an odd level and hashes
`left ‖ right` — the root is absent exactly for the empty record list, and the
built tree is structurally well formed: every internal node stores the SHA-256
of the concatenation of the hashes of its two children, and leaves have no
children. -/
theorem C4_merkle_construction {T : Type} (ser : T → List Nat) (states : List T) :
    (MerkleTree.new ser states).root_hash =
      specRoot (states.map (fun s => sha256 (ser s))) ∧
    ((MerkleTree.new ser states).root_hash = none ↔ states = []) ∧
    rootWFB (MerkleTree.new ser states).root = true := by
  have hmap : (states.map (Node.new_leaf ser)).map Node.hash =
      states.map (fun s => sha256 (ser s)) := by
    rw [List.map_map]
    rfl
  have h1 : (MerkleTree.new ser states).root_hash =
      specRoot (states.map (fun s => sha256 (ser s))) := by
    show (buildTree (states.map (Node.new_leaf ser))).map Node.hash = _
    rw [buildTree_hash, hmap]
  refine ⟨h1, ?_, ?_⟩
  · show (buildTree (states.map (Node.new_leaf ser))).map Node.hash = none ↔ states = []
    constructor
    · intro hnone
      have hbt : buildTree (states.map (Node.new_leaf ser)) = none := by
        cases hb : buildTree (states.map (Node.new_leaf ser)) with
        | none => rfl
        | some t => rw [hb] at hnone; simp at hnone
      have := (buildTree_eq_none _).mp hbt
      simpa using this
    · intro hs
      subst hs
      simp [buildTree]
  · show rootWFB (buildTree (states.map (Node.new_leaf ser))) = true
    cases hb : buildTree (states.map (Node.new_leaf ser)) with
    | none => rfl
    | some t =>
      have hleaf : ∀ n ∈ states.map (Node.new_leaf ser), n.wfB = true := by
        intro n hn
        obtain ⟨s, _, rfl⟩ := List.mem_map.mp hn
        rfl
      exact buildTree_wfB _ hleaf t hb

set_option maxRecDepth 100000 in
/-- C5: the claim says a transaction stored under `SHA-256(signature[0])` is
returned by `GET /get-transaction/{base58_signature}`. The handler hashes the
UTF-8 bytes of the base58 path string itself without decoding it, so its lookup
key differs from the storage key: with the store holding the transaction under
the digest of the raw 64-byte signature, the request returns the not-found
sentinel, even though a lookup under the storage key finds the record. -/
theorem C5_handler_misses_stored_transaction :
    TransactionHandler.get_transaction [(sha256 c5Signature, c5Transaction)]
        (base58Encode c5Signature) =
      TransactionReply.notFound (base58Encode c5Signature) ∧
    lookupKey (sha256 c5Signature) [(sha256 c5Signature, c5Transaction)] =
      some c5Transaction := by
  decide

/-- C6: the claim says `ValidatorClient::prove` posts to
`/prove/{base64url(root)}`. The source encodes the root with
`general_purpose::STANDARD`, whose alphabet differs from the url-safe one at
symbols 62 and 63: for a root starting with byte `0xFB`, the path built by the
client is the standard encoding and is not the base64url form (the form the
validator handler decodes with `URL_SAFE`). -/
theorem C6_standard_not_urlsafe :
    ValidatorClient.provePath [] c6Root =
      [47, 112, 114, 111, 118, 101, 47] ++ base64Std c6Root ∧
    ValidatorClient.provePath [] c6Root ≠
      [47, 112, 114, 111, 118, 101, 47] ++ base64Url c6Root :=
  ⟨rfl, by decide⟩

/-- C7: for every well-formed Solana transaction, borsh-serializing it through
the Trollup wire form and deserializing the bytes yields the same transaction:
same signatures, same 3-byte message header, same account keys, same recent
blockhash and same instructions. -/
theorem C7_serialize_roundtrip (tx : Transaction) (h : TxWF tx) :
    deserialize_transaction (serialize_transaction tx) = some tx := by
  obtain ⟨h1, h2, h3, h4, h5, h6, h7⟩ := h
  have hi : ∀ ix ∈ (trollupOfTransaction tx).message.instructions,
      ix.accounts.length < 4294967296 ∧ ix.data.length < 4294967296 := by
    intro ix hix
    obtain ⟨ix0, hmem, rfl⟩ := List.mem_map.mp hix
    exact h7 ix0 hmem
  have henc := readTransaction_enc (t := trollupOfTransaction tx)
    h1 h2 rfl h3 h4 h5 (by simpa [trollupOfTransaction, trollupOfMessage] using h6) hi []
  rw [List.append_nil] at henc
  unfold deserialize_transaction serialize_transaction
  rw [henc]
  exact congrArg some (transactionOfTrollup_trollupOf tx)

/-- Witness for C7: the round trip evaluated at a concrete transaction. -/
theorem C7_witness :
    TxWF c7Transaction ∧
    deserialize_transaction (serialize_transaction c7Transaction) =
      some c7Transaction :=
  ⟨by decide, C7_serialize_roundtrip c7Transaction (by decide)⟩

/-- C8: for a pool of `n` enqueued items and requested chunk `k`, the
bounded-batch dequeue of both pools returns exactly the first
`min(k, n)` items in insertion order and leaves the remaining items in their
original order (the hypothesis reflects the `as u32` cast of the pool size). -/
theorem C8_bounded_fifo_dequeue {α : Type} (chunk : Nat) (pool : List α)
    (h : pool.length < 4294967296) :
    StateCommitmentPool.get_next_chunk chunk pool =
      (pool.take (min chunk pool.length), pool.drop (min chunk pool.length)) ∧
    TransactionPool.get_next_transactions chunk pool =
      (pool.take (min chunk pool.length), pool.drop (min chunk pool.length)) := by
  have hbody : (if pool.length = 0 then (([] : List α), pool)
        else popFrontN (min chunk (pool.length % 4294967296)) pool) =
      (pool.take (min chunk pool.length), pool.drop (min chunk pool.length)) := by
    by_cases h0 : pool.length = 0
    · have hnil : pool = [] := List.length_eq_zero.mp h0
      subst hnil
      simp
    · rw [if_neg h0, Nat.mod_eq_of_lt h,
        popFrontN_eq_take_drop (min chunk pool.length) pool (Nat.min_le_right _ _)]
  exact ⟨hbody, hbody⟩

/-- Witness for C8: the dequeue theorem applied to a three-item pool and chunk 2. -/
theorem C8_witness :
    (([10, 20, 30] : List Nat).length < 4294967296) ∧
    (StateCommitmentPool.get_next_chunk 2 ([10, 20, 30] : List Nat) =
        (([10, 20, 30] : List Nat).take (min 2 ([10, 20, 30] : List Nat).length),
         ([10, 20, 30] : List Nat).drop (min 2 ([10, 20, 30] : List Nat).length)) ∧
     TransactionPool.get_next_transactions 2 ([10, 20, 30] : List Nat) =
        (([10, 20, 30] : List Nat).take (min 2 ([10, 20, 30] : List Nat).length),
         ([10, 20, 30] : List Nat).drop (min 2 ([10, 20, 30] : List Nat).length))) :=
  ⟨by decide, C8_bounded_fifo_dequeue 2 [10, 20, 30] (by decide)⟩

/-- C9: for every non-empty record list, `MerkleTree::new` returns a tree whose
root hash is the Merkle root over those records but whose stored `leaves`
vector is empty, so an immediate `add_leaf(x)` rebuilds the tree from the
post-construction leaves alone and the root hash becomes exactly the leaf hash
of `x`. -/
theorem C9_constructor_drops_leaves {T : Type} (ser : T → List Nat)
    (states : List T) (x : T) (_h : states ≠ []) :
    (MerkleTree.new ser states).leaves = [] ∧
    (MerkleTree.new ser states).root_hash =
      specRoot (states.map (fun s => sha256 (ser s))) ∧
    (MerkleTree.add_leaf ser (MerkleTree.new ser states) x).root_hash =
      some (sha256 (ser x)) := by
  refine ⟨rfl, ?_, ?_⟩
  · show (buildTree (states.map (Node.new_leaf ser))).map Node.hash = _
    rw [buildTree_hash, List.map_map]
    rfl
  · show (buildTree ([] ++ [Node.new_leaf ser x])).map Node.hash = _
    simp [buildTree, Node.new_leaf, Node.hash]

/-- Witness for C9: the constructor theorem applied to a one-record list. -/
theorem C9_witness :
    (([0] : List Nat) ≠ []) ∧
    ((MerkleTree.new (fun k : Nat => [k]) [0]).leaves = [] ∧
     (MerkleTree.new (fun k : Nat => [k]) [0]).root_hash =
       specRoot (([0] : List Nat).map (fun s => sha256 ((fun k : Nat => [k]) s))) ∧
     (MerkleTree.add_leaf (fun k : Nat => [k])
         (MerkleTree.new (fun k : Nat => [k]) [0]) 1).root_hash =
       some (sha256 ((fun k : Nat => [k]) 1))) :=
  ⟨by decide, C9_constructor_drops_leaves (fun k : Nat => [k]) [0] 1 (by decide)⟩

/-- C10: under the precondition that the signature vector is non-empty,
`TrollupTransaction::get_key` returns the SHA-256 digest of the first
signature; the precondition is necessary because the unconditional
`signatures[0]` indexing panics — modelled as `none` — on a transaction with
no signatures. -/
theorem C10_get_key_requires_signature (t : TrollupTransaction) :
    (t.signatures ≠ [] → t.getKeyOpt = some (sha256 (t.signatures.headD []))) ∧
    (t.signatures = [] → t.getKeyOpt = none) := by
  constructor
  · intro hne
    cases hsig : t.signatures with
    | nil => exact absurd hsig hne
    | cons s rest => simp [TrollupTransaction.getKeyOpt, hsig]
  · intro hnil
    simp [TrollupTransaction.getKeyOpt, hnil]

/-- Witness for C10: the key theorem applied to a one-signature transaction. -/
theorem C10_witness :
    c10Transaction.signatures ≠ [] ∧
    c10Transaction.getKeyOpt = some (sha256 (c10Transaction.signatures.headD [])) :=
  ⟨by decide, (C10_get_key_requires_signature c10Transaction).1 (by decide)⟩

end Trollup
